import Mathlib

/-!
Verification development for the Douyin full-stack summarizer bot.

This file gives a shallow embedding of the three source modules

* `main.py`                       — webhook, dedup cache, task lifecycle,
* `app/services/wechat_api.py`    — chunked text / markdown delivery,
* `app/services/ai_summarizer.py` — three-stage AI pipeline, large-audio path,

and proves (or refutes) the frozen behavioural claims about them.
Python strings are modelled as `String` (or `List Char` where byte-level
chunking matters), timestamps (`time.time()` floats) as `ℚ`, dictionaries as
association lists, and every fallible external call (HTTP, ffmpeg, crypto) as
an explicit outcome (`Except` / `Option`) supplied through an oracle record,
so that the control flow of the Python code is reproduced exactly.
-/

namespace DouyinBot

/-! ## Association-list helpers (Python `dict` assignment / deletion) -/

/-- Python `d[k] = v`: the entry for `k` is replaced (or created). -/
def insertEntry {α : Type} (k : String) (v : α) (l : List (String × α)) :
    List (String × α) :=
  (k, v) :: l.filter (fun e => e.1 != k)

/-- Python `del d[k]` / `d.pop(k, None)`: every entry for `k` is removed. -/
def eraseEntry {α : Type} (k : String) (l : List (String × α)) :
    List (String × α) :=
  l.filter (fun e => e.1 != k)

theorem lookup_insertEntry {α : Type} (k : String) (v : α) (l : List (String × α)) :
    List.lookup k (insertEntry k v l) = some v := by
  simp [insertEntry, List.lookup]

theorem lookup_eraseEntry {α : Type} (k : String) (l : List (String × α)) :
    List.lookup k (eraseEntry k l) = none := by
  induction l with
  | nil => rfl
  | cons e es ih =>
    obtain ⟨a, b⟩ := e
    simp only [eraseEntry, List.filter_cons] at ih ⊢
    by_cases h : a = k
    · simpa [h] using ih
    · have hb : (a != k) = true := bne_iff_ne.mpr h
      have hk : (k == a) = false := beq_eq_false_iff_ne.mpr (Ne.symm h)
      simpa [hb, List.lookup, hk] using ih

theorem lookup_filter_ne {α : Type} (k k' : String) (l : List (String × α))
    (h : k' ≠ k) :
    List.lookup k' (l.filter (fun e => e.1 != k)) = List.lookup k' l := by
  induction l with
  | nil => rfl
  | cons e es ih =>
    obtain ⟨a, b⟩ := e
    simp only [List.filter_cons]
    by_cases ha : a = k
    · subst ha
      have hk : (k' == a) = false := beq_eq_false_iff_ne.mpr h
      simpa [List.lookup, hk] using ih
    · have hb : (a != k) = true := bne_iff_ne.mpr ha
      by_cases hka : k' = a
      · simp [hb, List.lookup, hka]
      · have hk : (k' == a) = false := beq_eq_false_iff_ne.mpr hka
        simpa [hb, List.lookup, hk] using ih

theorem lookup_insertEntry_ne {α : Type} (k k' : String) (v : α)
    (l : List (String × α)) (h : k' ≠ k) :
    List.lookup k' (insertEntry k v l) = List.lookup k' l := by
  have hk : (k' == k) = false := by simp [h]
  simp [insertEntry, List.lookup, hk, lookup_filter_ne k k' l h]

theorem lookup_eraseEntry_ne {α : Type} (k k' : String)
    (l : List (String × α)) (h : k' ≠ k) :
    List.lookup k' (eraseEntry k l) = List.lookup k' l :=
  lookup_filter_ne k k' l h

/-! ## `app/services/wechat_api.py` — chunked delivery

Python strings are modelled here as `List Char` because the splitting logic
mixes character indexing (`content[:cut]`) with UTF-8 byte counting
(`len(content[:cut].encode('utf-8'))`). -/

/-- Python `len(s.encode('utf-8'))`: total UTF-8 byte size of the text. -/
def utf8Len (l : List Char) : Nat := (l.map Char.utf8Size).sum

/-- `max_len = 2000` in `send_text_message` (both the starting character cut
and the byte limit). -/
def MAX_LEN : Nat := 2000

/-- `while len(content[:cut].encode('utf-8')) > max_len: cut -= 1`
(lines 48-50 of `wechat_api.py`), starting from the given `cut`. -/
def shrinkCut (content : List Char) : Nat → Nat
  | 0 => 0
  | cut + 1 =>
    if utf8Len (content.take (cut + 1)) > MAX_LEN then shrinkCut content cut
    else cut + 1

/-- Python `s.rfind(c)`: highest index of `c` in `s`, `-1` if absent. -/
def rfindAux (c : Char) : List Char → Nat → Int → Int
  | [], _, acc => acc
  | x :: xs, i, acc => rfindAux c xs (i + 1) (if x = c then (i : Int) else acc)

/-- Python `s.rfind(c)` over a character list. -/
def rfind (l : List Char) (c : Char) : Int := rfindAux c l 0 (-1)

/-- One iteration of the splitting loop in `send_text_message`
(lines 48-53): shrink the candidate cut until the prefix fits in
`max_len` bytes, then move the cut to just after the last newline of that
prefix if that newline lies past the midpoint `cut // 2`. -/
def nextCut (content : List Char) : Nat :=
  let cut := shrinkCut content MAX_LEN
  let lastNewline := rfind (content.take cut) '\n'
  if lastNewline > (cut : Int) / 2 then (lastNewline + 1).toNat else cut

theorem utf8Len_append (l₁ l₂ : List Char) :
    utf8Len (l₁ ++ l₂) = utf8Len l₁ + utf8Len l₂ := by
  simp [utf8Len]

theorem utf8Size_le_four (c : Char) : c.utf8Size ≤ 4 := by
  simp only [Char.utf8Size]
  repeat' split
  all_goals simp

theorem utf8Len_take_le (l : List Char) (n : Nat) :
    utf8Len (l.take n) ≤ utf8Len l := by
  conv_rhs => rw [← List.take_append_drop n l]
  rw [utf8Len_append]
  exact Nat.le_add_right _ _

theorem utf8Len_take_mono (l : List Char) {j k : Nat} (h : j ≤ k) :
    utf8Len (l.take j) ≤ utf8Len (l.take k) := by
  have : l.take j = (l.take k).take j := by
    rw [List.take_take, Nat.min_eq_left h]
  rw [this]
  exact utf8Len_take_le _ _

theorem shrinkCut_le_bound (content : List Char) (k : Nat) :
    utf8Len (content.take (shrinkCut content k)) ≤ MAX_LEN := by
  induction k with
  | zero => simp [shrinkCut, utf8Len]
  | succ n ih =>
    rw [shrinkCut]
    split
    · exact ih
    · omega

theorem shrinkCut_pos (content : List Char) (hc : content ≠ []) (k : Nat)
    (hk : 1 ≤ k) : 1 ≤ shrinkCut content k := by
  induction k with
  | zero => omega
  | succ n ih =>
    rw [shrinkCut]
    split
    · rename_i hgt
      rcases Nat.eq_zero_or_pos n with hn | hn
      · subst hn
        exfalso
        obtain ⟨c, cs, rfl⟩ := List.exists_cons_of_ne_nil hc
        have h1 : utf8Len ((c :: cs).take 1) = c.utf8Size := by
          simp [utf8Len]
        have h4 := utf8Size_le_four c
        rw [h1] at hgt
        simp [MAX_LEN] at hgt
        omega
      · exact ih hn
    · omega

theorem rfindAux_lt (c : Char) (l : List Char) :
    ∀ (i : Nat) (acc : Int), acc < i → rfindAux c l i acc < i + l.length := by
  induction l with
  | nil => intro i acc h; simpa [rfindAux] using h
  | cons x xs ih =>
    intro i acc h
    rw [rfindAux]
    have h' : (if x = c then (i : Int) else acc) < (i : Nat) + 1 := by
      split <;> omega
    have := ih (i + 1) _ (by exact_mod_cast h')
    simp only [List.length_cons]
    omega

theorem rfind_lt_length (l : List Char) (c : Char) :
    rfind l c < l.length := by
  have := rfindAux_lt c l 0 (-1) (by omega)
  simpa [rfind] using this

theorem nextCut_pos (content : List Char) (hc : content ≠ []) :
    1 ≤ nextCut content := by
  rw [nextCut]
  split
  · rename_i hgt
    have : (0 : Int) ≤ (shrinkCut content MAX_LEN : Int) / 2 := by positivity
    omega
  · exact shrinkCut_pos content hc MAX_LEN (by simp [MAX_LEN])

theorem nextCut_le_shrink (content : List Char) :
    nextCut content ≤ shrinkCut content MAX_LEN := by
  rw [nextCut]
  split
  · rename_i hgt
    have hlt := rfind_lt_length (content.take (shrinkCut content MAX_LEN)) '\n'
    have hlen : ((content.take (shrinkCut content MAX_LEN)).length : Int) ≤
        (shrinkCut content MAX_LEN : Int) := by
      simp [List.length_take]
    omega
  · exact Nat.le_refl _

theorem utf8Len_nextCut_le (content : List Char) :
    utf8Len (content.take (nextCut content)) ≤ MAX_LEN :=
  Nat.le_trans (utf8Len_take_mono content (nextCut_le_shrink content))
    (shrinkCut_le_bound content MAX_LEN)

/-- The splitting loop of `send_text_message` (lines 43-55): `parts` as
accumulated by `while content: ... parts.append(content[:cut]);
content = content[cut:]`, with the short-content early exit.  The loop
consumes at least one character per iteration (`nextCut_pos`), so running it
with the content length as structural fuel is exact (`splitParts` below). -/
def splitPartsFuel : Nat → List Char → List (List Char)
  | _, [] => []
  | 0, _ :: _ => []
  | fuel + 1, c :: cs =>
    if utf8Len (c :: cs) ≤ MAX_LEN then [c :: cs]
    else
      (c :: cs).take (nextCut (c :: cs)) ::
        splitPartsFuel fuel ((c :: cs).drop (nextCut (c :: cs)))

/-- `parts` as computed by `send_text_message` for the given content. -/
def splitParts (content : List Char) : List (List Char) :=
  splitPartsFuel content.length content

/-- The `f"[{i+1}/{len(parts)}]\n"` marker prefixed to every non-first part
(line 60 of `wechat_api.py`). -/
def marker (i total : Nat) : List Char :=
  ('[' :: (toString i).data) ++ ('/' :: (toString total).data) ++ [']', '\n']

/-- The parts as actually posted by `send_text_message` (lines 58-68): when
more than one part results, every part after the first carries the
`"[i/total]"` marker. -/
def sentParts (content : List Char) : List (List Char) :=
  let parts := splitParts content
  parts.enum.map (fun p =>
    if parts.length > 1 ∧ p.1 > 0 then marker (p.1 + 1) parts.length ++ p.2
    else p.2)

theorem splitPartsFuel_le (fuel : Nat) :
    ∀ (content : List Char) part, part ∈ splitPartsFuel fuel content →
      utf8Len part ≤ MAX_LEN := by
  induction fuel with
  | zero =>
    intro content part hp
    cases content <;> simp [splitPartsFuel] at hp
  | succ n ih =>
    intro content part hp
    cases content with
    | nil => simp [splitPartsFuel] at hp
    | cons c cs =>
      rw [splitPartsFuel] at hp
      by_cases hle : utf8Len (c :: cs) ≤ MAX_LEN
      · simp only [if_pos hle, List.mem_singleton] at hp
        subst hp; exact hle
      · simp only [if_neg hle, List.mem_cons] at hp
        rcases hp with hp | hp
        · subst hp; exact utf8Len_nextCut_le (c :: cs)
        · exact ih _ part hp

theorem splitParts_le (content : List Char) :
    ∀ part ∈ splitParts content, utf8Len part ≤ MAX_LEN :=
  fun part hp => splitPartsFuel_le content.length content part hp

theorem splitPartsFuel_flatten (fuel : Nat) :
    ∀ (content : List Char), content.length ≤ fuel →
      (splitPartsFuel fuel content).flatten = content := by
  induction fuel with
  | zero =>
    intro content hlen
    have : content = [] := List.eq_nil_of_length_eq_zero (Nat.le_zero.mp hlen)
    subst this; rfl
  | succ n ih =>
    intro content hlen
    cases content with
    | nil => rfl
    | cons c cs =>
      rw [splitPartsFuel]
      by_cases hle : utf8Len (c :: cs) ≤ MAX_LEN
      · simp [if_pos hle]
      · have hcut := nextCut_pos (c :: cs) (by simp)
        have hdrop : ((c :: cs).drop (nextCut (c :: cs))).length ≤ n := by
          rw [List.length_drop, List.length_cons]
          simp only [List.length_cons] at hlen
          omega
        simp only [if_neg hle, List.flatten_cons, ih _ hdrop,
          List.take_append_drop]

theorem splitParts_flatten (content : List Char) :
    (splitParts content).flatten = content :=
  splitPartsFuel_flatten content.length content (Nat.le_refl _)

/-! ### `send_markdown_message` (lines 71-106 of `wechat_api.py`) -/

/-- `MAX_BYTES = 1800` in `send_markdown_message`. -/
def MAX_BYTES : Nat := 1800

/-- Python `content.split('\n')`: the separator-delimited pieces, without the
separators; an empty string yields `[[]]`, like Python's `[""]`. -/
def splitOnNl : List Char → List (List Char)
  | [] => [[]]
  | c :: cs =>
    if c = '\n' then [] :: splitOnNl cs
    else
      match splitOnNl cs with
      | [] => [[c]]
      | p :: ps => (c :: p) :: ps

/-- One iteration of the accumulation loop in `send_markdown_message`
(lines 80-87): state is `(parts, current_part)`, the incoming piece `p` is
turned into `line = p + '\n'`. -/
def mdStep (acc : List (List Char) × List Char) (p : List Char) :
    List (List Char) × List Char :=
  let line := p ++ ['\n']
  if utf8Len (acc.2 ++ line) > MAX_BYTES then
    (if acc.2 = [] then acc.1 else acc.1 ++ [acc.2], line)
  else (acc.1, acc.2 ++ line)

/-- `parts` as computed by `send_markdown_message` (lines 77-90): fold the
split lines through `mdStep`, then flush a non-empty `current_part`. -/
def splitMarkdownParts (content : List Char) : List (List Char) :=
  let acc := (splitOnNl content).foldl mdStep ([], [])
  if acc.2 = [] then acc.1 else acc.1 ++ [acc.2]

/-- Outcome of running `send_markdown_message`: either every part was posted,
or an uncaught `NameError` escaped after posting the parts sent so far.
`wechat_api.py` imports only `time`, `logging` and `httpx`, so the
`await asyncio.sleep(0.2)` on line 106 — reached after each posted part when
`len(parts) > 1` — raises `NameError: name 'asyncio' is not defined`, which
no surrounding handler catches (the `try` on lines 100-103 only wraps the
`client.post`). -/
inductive MdSendResult where
  | ok (sent : List (List Char))
  | nameError (sent : List (List Char))
deriving DecidableEq

/-- The send loop of `send_markdown_message` (lines 92-106).  With a single
part the `if len(parts) > 1` guard is never true and every part is posted;
with more than one part, the first iteration posts `parts[0]` and then the
unbound `asyncio` name raises, so delivery stops there. -/
def send_markdown_message (content : List Char) : MdSendResult :=
  let parts := splitMarkdownParts content
  if parts.length > 1 then .nameError (parts.take 1) else .ok parts

/-! ## `app/services/ai_summarizer.py` — large-audio segmentation -/

/-- The 24 MiB routing threshold of `stage1_transcribe_and_draft`
(line 105 of `ai_summarizer.py`): `True` routes the audio to
`_stage1_large_audio`. -/
def routesToLargeAudio (sizeBytes : Nat) : Bool :=
  sizeBytes > 24 * 1024 * 1024

/-- Segment window: `-t 600` / `start += 600` in `_stage1_large_audio`. -/
def SEGMENT_WINDOW : Nat := 600

/-- The segmentation loop of `_stage1_large_audio` (lines 150-155):
`start = 0; while start < duration: ... start += 600`, collecting the
segment start offsets.  `duration` is the float printed by ffprobe,
modelled as `ℚ`. -/
def segStartsAux (duration : ℚ) (start : Nat) : List Nat :=
  if (start : ℚ) < duration then start :: segStartsAux duration (start + SEGMENT_WINDOW)
  else []
termination_by (⌈duration⌉ - start).toNat
decreasing_by
  rename_i h
  have h1 : (start : ℤ) < ⌈duration⌉ := by
    exact_mod_cast Int.lt_ceil.mpr (by exact_mod_cast h)
  simp only [SEGMENT_WINDOW]
  omega

/-- The segment start offsets created for a given audio duration. -/
def segStarts (duration : ℚ) : List Nat := segStartsAux duration 0

/-- The transcription loop of `_stage1_large_audio` (lines 157-162): each
segment is transcribed independently (`transcribe seg = none` models the
`except: pass` on a failed attempt), its text is appended on success, and
the `finally:` deletes the segment file after every attempt.  Returns
`(parts, deletedSegments)`. -/
def transcribeSegments (transcribe : Nat → Option String) (segs : List Nat) :
    List String × List Nat :=
  segs.foldl (fun acc seg =>
    match transcribe seg with
    | some t => (acc.1 ++ [t], acc.2 ++ [seg])
    | none => (acc.1, acc.2 ++ [seg])) ([], [])

/-! ## `main.py` — webhook, dedup cache, task lifecycle

Timestamps (`time.time()` floats) are modelled as `ℚ`; the dedup dict
`_processed_msgs` as an association list `String × ℚ`. -/

/-- `MSG_DEDUP_TTL = 300` (line 51 of `main.py`). -/
def MSG_DEDUP_TTL : ℚ := 300

/-- The fields `receive_message` reads from the decrypted XML.  `msgId = none`
models a message without a usable `<MsgId>`: the element is absent, or its
text is `None`/empty — all of which line 124 maps to `""`.  Same for
`createTime` (line 125) and `content` (line 137). -/
structure ParsedMsg where
  msgType : String
  fromUser : String
  msgId : Option String
  createTime : Option String
  content : Option String
deriving DecidableEq

/-- `dedup_key = f"{msg_id}_{create_time}"` (line 126). -/
def dedup_key (m : ParsedMsg) : String :=
  m.msgId.getD "" ++ "_" ++ m.createTime.getD ""

/-- Outcome of the message-handling part of `receive_message`:
the HTTP response text, the updated `_processed_msgs`, and whether the
message was handed to `handle_message` (line 139). -/
structure RecvOutcome where
  response : String
  processed : List (String × ℚ)
  dispatched : Bool
deriving DecidableEq

/-- Lines 124-141 of `receive_message`: dedup check (eq to an early
`"success"` return, leaving every piece of state untouched), then recording
of the key, lazy eviction of expired entries, and dispatch of text
messages. -/
def receive_step (m : ParsedMsg) (now : ℚ) (pm : List (String × ℚ)) :
    RecvOutcome :=
  let key := dedup_key m
  let isDup : Bool :=
    match List.lookup key pm with
    | some t => decide (now - t < MSG_DEDUP_TTL)
    | none => false
  if isDup then ⟨"success", pm, false⟩
  else
    let pm1 := insertEntry key now pm
    let pm2 := pm1.filter (fun e => decide (now - e.2 ≤ MSG_DEDUP_TTL))
    ⟨"success", pm2, m.msgType == "text"⟩

/-- UTF-8 validity of a byte sequence, as checked by Python's
`bytes.decode('utf-8')` on line 115 (RFC 3629 ranges; continuation bytes are
`0x80-0xBF`, with the usual tightened second-byte ranges for `E0`, `ED`,
`F0` and `F4`). -/
def utf8ContByte (b : Nat) : Bool := decide (0x80 ≤ b ∧ b ≤ 0xBF)

/-- UTF-8 validity of a whole byte string. -/
def utf8Valid : List Nat → Bool
  | [] => true
  | b :: r =>
    if b ≤ 0x7F then utf8Valid r
    else if 0xC2 ≤ b ∧ b ≤ 0xDF then
      match r with
      | c1 :: r1 => utf8ContByte c1 && utf8Valid r1
      | [] => false
    else if b = 0xE0 then
      match r with
      | c1 :: c2 :: r2 =>
        decide (0xA0 ≤ c1 ∧ c1 ≤ 0xBF) && utf8ContByte c2 && utf8Valid r2
      | _ => false
    else if (0xE1 ≤ b ∧ b ≤ 0xEC) ∨ b = 0xEE ∨ b = 0xEF then
      match r with
      | c1 :: c2 :: r2 => utf8ContByte c1 && utf8ContByte c2 && utf8Valid r2
      | _ => false
    else if b = 0xED then
      match r with
      | c1 :: c2 :: r2 =>
        decide (0x80 ≤ c1 ∧ c1 ≤ 0x9F) && utf8ContByte c2 && utf8Valid r2
      | _ => false
    else if b = 0xF0 then
      match r with
      | c1 :: c2 :: c3 :: r3 =>
        decide (0x90 ≤ c1 ∧ c1 ≤ 0xBF) && utf8ContByte c2 && utf8ContByte c3
          && utf8Valid r3
      | _ => false
    else if 0xF1 ≤ b ∧ b ≤ 0xF3 then
      match r with
      | c1 :: c2 :: c3 :: r3 =>
        utf8ContByte c1 && utf8ContByte c2 && utf8ContByte c3 && utf8Valid r3
      | _ => false
    else if b = 0xF4 then
      match r with
      | c1 :: c2 :: c3 :: r3 =>
        decide (0x80 ≤ c1 ∧ c1 ≤ 0x8F) && utf8ContByte c2 && utf8ContByte c3
          && utf8Valid r3
      | _ => false
    else false

/-- Outcomes of the two fallible steps inside the `try:` of
`receive_message`: `decrypt` is `crypto.decrypt_msg(...)` (line 118),
`parseXml` is `ET.fromstring` plus the required `MsgType` / `FromUserName`
field reads (lines 119-121; a missing element raises `AttributeError`). -/
structure CallbackOracles where
  decrypt : Except String String
  parseXml : Except String ParsedMsg

/-- Result of a full `POST /callback` round: either a response is returned,
or an exception escapes the handler uncaught. -/
inductive WebhookResult where
  | resp (r : RecvOutcome)
  | uncaught (e : String)
deriving DecidableEq

/-- `receive_message` (lines 107-146 of `main.py`).  The body decode on
line 115 runs before the `try:` block, so a body that is not valid UTF-8
raises `UnicodeDecodeError` past the webhook boundary; every failure inside
the `try:` is caught and still answered with `"success"`. -/
def receive_message (body : List Nat) (o : CallbackOracles) (now : ℚ)
    (pm : List (String × ℚ)) : WebhookResult :=
  if utf8Valid body then
    match o.decrypt with
    | .error _ => .resp ⟨"success", pm, false⟩
    | .ok _ =>
      match o.parseXml with
      | .error _ => .resp ⟨"success", pm, false⟩
      | .ok m => .resp (receive_step m now pm)
  else .uncaught "UnicodeDecodeError"

/-- `True` when the boundary answered its caller with `"success"`. -/
def WebhookResult.isSuccessAck : WebhookResult → Bool
  | .resp r => r.response == "success"
  | .uncaught _ => false

/-! ### Task lifecycle (`PendingTask`, `_pending`, `handle_message`,
`_start_new_task`, `_wait_then_process`, `_process_task`) -/

/-- `PendingTask` (lines 64-73 of `main.py`).  `timerActive` models
`timer_task`: `true` iff a scheduled, not-yet-cancelled, not-yet-fired
debounce timer is attached.  `created_at` (a timestamp used only for
logging-style observability) is omitted. -/
structure PendingTask where
  user_id : String
  share_url : String
  share_text : String
  extra_requirement : String := ""
  timerActive : Bool := false
  processing : Bool := false
deriving DecidableEq

/-- The module-level registry `_pending : Dict[str, PendingTask]`. -/
structure BotState where
  pending : List (String × PendingTask)
deriving DecidableEq

/-- `resolve_and_download`'s result dict (keys read on lines 237-242).
Python `video_info["title"] or "未知标题"` treats `None` and `""` alike, so
an absent title is modelled as `""`. -/
structure VideoInfo where
  video_id : String
  title : String
  author : String
  video_path : String
deriving DecidableEq

/-- Python `x or default` for strings (falsy = empty). -/
def strOr (s d : String) : String := if s = "" then d else s

/-- Observable actions of the lifecycle code, in program order.  A send
effect is recorded when the call is made, whether or not it then raises. -/
inductive Effect where
  | sendText (uid msg : String)
  | sendMarkdown (uid msg : String)
  | uploadPdf (video_id : String)
  | sendFile (uid mediaId : String)
  | saveKnowledge (video_id req : String)
  | summarizeCall (req : String)
  | cleanupFiles (video_id : String)
  | removePdf (video_id : String)
  | popPending (uid : String)
deriving DecidableEq

/-- Outcomes of every external call made by `handle_message` and
`_process_task`, plus the two pure collaborator functions from
`douyin_parser`.  `Except.error e` models the call raising an exception
with text `e`; the collaborators (`extract_url_from_text`,
`extract_user_requirement`) live outside `src/` and are universally
quantified functions. -/
structure Oracles where
  extractUrl : String → Option String
  extractReq : String → String → String
  sendAck : Except String Unit
  resolve : Except String VideoInfo
  audioExtract : Except String String
  videoCode : String
  sendInfo : Except String Unit
  summarize : Except String String
  saveEntry : Except String Unit
  genPdf : Except String Bool
  upload : Except String String
  sendFilePost : Except String Unit
  sendPdfFailNote : Except String Unit
  sendMdSummary : Except String Unit
  sendErrNote : Except String Unit
  cleanupRun : Except String Unit

/-- The trigger words of line 232 of `main.py`. -/
def TRIGGER_WORDS : List String := ["开始", "start", "ok", "好"]

/-- Python `s.strip()`: leading and trailing whitespace removed (modelled
with ASCII whitespace, which covers every input the bot compares against). -/
def pyStrip (s : String) : String :=
  String.mk
    (((s.data.dropWhile Char.isWhitespace).reverse.dropWhile
      Char.isWhitespace).reverse)

/-- Python `s.lower()` (ASCII case mapping, which covers the trigger
words). -/
def pyLower (s : String) : String := String.mk (s.data.map Char.toLower)

/-- Lines 229-233 of `_process_task`: `req = task.share_text`, overwritten
by a non-empty `extra_requirement` unless its stripped, lower-cased form is
one of the trigger words. -/
def mergeRequirement (share_text extra_requirement : String) : String :=
  if extra_requirement ≠ "" then
    if pyLower (pyStrip extra_requirement) ∈ TRIGGER_WORDS then share_text
    else extra_requirement
  else share_text

/-- The "busy" reply of line 183. -/
def BUSY_MSG : String := "视频正在处理中，请稍候..."

/-- The acknowledgment of line 206. -/
def ACK_MSG : String := "收到。发送“开始”立即处理，或输入具体要求。2分钟后默认处理。"

/-- The help reply of lines 187-191. -/
def HELP_MSG : String :=
  "收到，请发送抖音链接。\n\n发送链接后，2分钟内可补充具体要求（如\x27关注投资策略\x27）。"

/-- The generic failure reply of line 196, sent by `handle_message`'s own
`except` handler. -/
def SYS_BUSY_MSG : String := "❌ 系统繁忙"

/-- Result of the `try:` body of `_process_task` (lines 228-279):
`videoId` is the local `video_id` (set once `resolve_and_download`
succeeded), `err` is the message of an exception that escaped the body
(caught by the `except` on line 281), `effs` the effects in order. -/
structure BodyResult where
  videoId : Option String
  err : Option String
  effs : List Effect
deriving DecidableEq

/-- The `try:` body of `_process_task` (lines 228-279), for a task whose
merged requirement is `req`. -/
def processBody (o : Oracles) (uid req : String) : BodyResult :=
  match o.resolve with
  | .error e => ⟨none, some e, []⟩
  | .ok vi =>
    let vid := vi.video_id
    let title := strOr vi.title ("未知标题")
    let author := strOr vi.author ("未知作者")
    match o.audioExtract with
    | .error e => ⟨some vid, some e, []⟩
    | .ok _ =>
      let infoEff := Effect.sendText uid
        ("视频: " ++ title ++ "\n作者: " ++ author ++ "\n视频码: "
          ++ o.videoCode ++ "\n\n处理中...")
      match o.sendInfo with
      | .error e => ⟨some vid, some e, [infoEff]⟩
      | .ok _ =>
        let effs1 := [infoEff, Effect.summarizeCall req]
        match o.summarize with
        | .error e => ⟨some vid, some e, effs1⟩
        | .ok summary =>
          let effs2 := effs1 ++ [Effect.saveKnowledge vid req]
          let pdfRes : Bool × List Effect :=
            match o.genPdf with
            | .error _ => (false, effs2)
            | .ok false => (false, effs2)
            | .ok true =>
              match o.upload with
              | .error _ => (false, effs2 ++ [Effect.uploadPdf vid])
              | .ok mid =>
                match o.sendFilePost with
                | .error _ =>
                  (false, effs2 ++ [Effect.uploadPdf vid, Effect.sendFile uid mid])
                | .ok _ =>
                  (true, effs2 ++ [Effect.uploadPdf vid, Effect.sendFile uid mid])
          if pdfRes.1 then ⟨some vid, none, pdfRes.2⟩
          else
            let effs4 := pdfRes.2 ++ [Effect.sendText uid ("PDF失败，发送文本:")]
            match o.sendPdfFailNote with
            | .error e => ⟨some vid, some e, effs4⟩
            | .ok _ =>
              let effs5 := effs4 ++ [Effect.sendMarkdown uid summary]
              match o.sendMdSummary with
              | .error e => ⟨some vid, some e, effs5⟩
              | .ok _ => ⟨some vid, none, effs5⟩

/-- `_process_task` (lines 221-294 of `main.py`): the early-return guard,
`task.processing = True`, the requirement merge, the `try:` body, the
`except` handler's truncated failure notice (its own send outcome is
swallowed by `try/except: pass`), and the `finally:` teardown, then
`_pending.pop(user_id, None)`.  The cleanup on line 288 is guarded by
Python truthiness `if video_id:`, so a resolved but *empty* identifier
(falsy, like the initial `None`) skips the cleanup block; all cleanup
exceptions are swallowed, and a failing `cleanup_files` aborts that block
before the PDF removal. -/
def processTask (o : Oracles) (uid : String) (st : BotState) :
    BotState × List Effect :=
  match List.lookup uid st.pending with
  | none => (st, [])
  | some task =>
    let st1 : BotState :=
      ⟨insertEntry uid { task with processing := true } st.pending⟩
    let req := mergeRequirement task.share_text task.extra_requirement
    let body := processBody o uid req
    let effs2 := body.effs ++
      (match body.err with
       | some e => [Effect.sendText uid ("处理失败: " ++ e.take 100)]
       | none => [])
    let cleanupEffs :=
      match body.videoId with
      | some vid =>
        if vid = "" then []
        else
          match o.cleanupRun with
          | .ok _ => [Effect.cleanupFiles vid, Effect.removePdf vid]
          | .error _ => [Effect.cleanupFiles vid]
      | none => []
    (⟨eraseEntry uid st1.pending⟩, effs2 ++ cleanupEffs ++ [Effect.popPending uid])

/-- `_start_new_task` (lines 200-207): create and register the task, send
the acknowledgment, then attach the debounce timer.  If the send raises,
`handle_message`'s `except` replies `SYS_BUSY_MSG` and the timer is never
scheduled; the freshly created registry entry stays. -/
def startNewTask (o : Oracles) (uid content url : String) (st : BotState) :
    BotState × List Effect :=
  let task : PendingTask :=
    { user_id := uid, share_url := url, share_text := o.extractReq content url }
  let st1 : BotState := ⟨insertEntry uid task st.pending⟩
  match o.sendAck with
  | .ok _ =>
    (⟨insertEntry uid { task with timerActive := true } st1.pending⟩,
      [Effect.sendText uid ACK_MSG])
  | .error _ =>
    (st1, [Effect.sendText uid ACK_MSG, Effect.sendText uid SYS_BUSY_MSG])

/-- Cases 2-4 of `handle_message` (lines 175-191), reached when the user is
not in the waiting list (or already processing): link messages start a new
task, non-link messages get the busy or help reply. -/
def afterPendingCheck (o : Oracles) (uid content : String) (st : BotState) :
    BotState × List Effect :=
  match o.extractUrl content with
  | some url => startNewTask o uid content url st
  | none =>
    match List.lookup uid st.pending with
    | some p =>
      if p.processing then (st, [Effect.sendText uid BUSY_MSG])
      else (st, [Effect.sendText uid HELP_MSG])
    | none => (st, [Effect.sendText uid HELP_MSG])

/-- `handle_message` (lines 149-197 of `main.py`).  Case 1 (user in the
waiting list and not processing): a new link cancels the timer, drops the
old task and starts over; any other text is stored as the extra requirement,
the timer is cancelled and processing starts at once.  Otherwise fall
through to cases 2-4. -/
def handleMessage (o : Oracles) (uid content : String) (st : BotState) :
    BotState × List Effect :=
  match List.lookup uid st.pending with
  | some p =>
    if p.processing then afterPendingCheck o uid content st
    else
      match o.extractUrl content with
      | some newUrl =>
        startNewTask o uid content newUrl ⟨eraseEntry uid st.pending⟩
      | none =>
        let p1 := { p with extra_requirement := pyStrip content, timerActive := false }
        processTask o uid ⟨insertEntry uid p1 st.pending⟩
  | none => afterPendingCheck o uid content st

/-! ### The debounce race (claim C2)

`asyncio` schedules coroutines cooperatively: a coroutine runs atomically
until its next `await` on a true suspension point.  The two racing events of
§4.2 are therefore modelled as the synchronous prefixes, up to the first
network call inside `_process_task` (line 236), of

* the timer body `_wait_then_process` after its `sleep` returns — it only
  runs at all if the timer was not cancelled — followed by the guard and
  `task.processing = True` of `_process_task` (lines 214-216, 223-225), and
* the case-1 branch of `handle_message` for a non-link trigger message —
  timer cancellation on lines 169-170, then the same `_process_task`
  prefix (lines 153, 166-172, 223-225).

Each step returns the new state and whether a pipeline run was started
(i.e. control passed the `processing` guard). -/

/-- Atomic prefix of a debounce-timer fire for `uid`. -/
def timerFireStep (uid : String) (st : BotState) : BotState × Bool :=
  match List.lookup uid st.pending with
  | some t =>
    if t.timerActive ∧ ¬t.processing then
      (⟨insertEntry uid { t with processing := true, timerActive := false }
          st.pending⟩, true)
    else (st, false)
  | none => (st, false)

/-- Atomic prefix of an explicit non-link trigger message for `uid`. -/
def explicitStep (o : Oracles) (uid content : String) (st : BotState) :
    BotState × Bool :=
  match List.lookup uid st.pending with
  | some t =>
    if t.processing then (st, false)
    else
      match o.extractUrl content with
      | some url =>
        ((startNewTask o uid content url ⟨eraseEntry uid st.pending⟩).1, false)
      | none =>
        let t1 := { t with extra_requirement := pyStrip content,
                           timerActive := false, processing := true }
        (⟨insertEntry uid t1 st.pending⟩, true)
  | none => (st, false)

/-! ## Shared lemmas about the webhook layer -/

theorem receive_step_response (m : ParsedMsg) (now : ℚ)
    (pm : List (String × ℚ)) : (receive_step m now pm).response = "success" := by
  simp only [receive_step]
  split <;> rfl

/-! ## Claims -/

/-- C3: a message whose dedup key equals the key of a message recorded less
than `MSG_DEDUP_TTL = 300` seconds earlier is dropped before dispatch: the
webhook only acknowledges with `"success"`, nothing is dispatched to
`handle_message`, and the dedup cache is left exactly as it was. -/
theorem dedup_drop_within_ttl (m : ParsedMsg) (now t : ℚ)
    (pm : List (String × ℚ))
    (h1 : List.lookup (dedup_key m) pm = some t)
    (h2 : now - t < MSG_DEDUP_TTL) :
    receive_step m now pm = ⟨"success", pm, false⟩ := by
  simp [receive_step, h1, h2]

/-- Witness for C3 at a concrete message, cache and clock. -/
theorem dedup_drop_within_ttl_witness :
    receive_step ⟨"text", "u", some "42", some "170", some "hi"⟩ 15
        [("42_170", 10)] = ⟨"success", [("42_170", 10)], false⟩ :=
  dedup_drop_within_ttl _ 15 10 _ (by decide)
    (by rw [MSG_DEDUP_TTL]; norm_num)

/-- C10: both dedup-key components default to `""` when the corresponding
XML element is missing, so any two messages without `MsgId` and `CreateTime`
share the key `"_"`; the second one arriving within the TTL is silently
dropped (not dispatched, cache unchanged). -/
theorem dedup_missing_ids_collide (m1 m2 : ParsedMsg) (t1 t2 : ℚ)
    (h1 : m1.msgId = none) (h2 : m1.createTime = none)
    (h3 : m2.msgId = none) (h4 : m2.createTime = none)
    (h5 : t2 - t1 < MSG_DEDUP_TTL) :
    dedup_key m1 = "_" ∧ dedup_key m2 = "_"
    ∧ (receive_step m2 t2 (receive_step m1 t1 []).processed).dispatched = false
    ∧ (receive_step m2 t2 (receive_step m1 t1 []).processed).processed
        = (receive_step m1 t1 []).processed := by
  have k1 : dedup_key m1 = "_" := by rw [dedup_key, h1, h2]; rfl
  have k2 : dedup_key m2 = "_" := by rw [dedup_key, h3, h4]; rfl
  have hkeep : (t1 - t1 ≤ MSG_DEDUP_TTL) := by
    rw [MSG_DEDUP_TTL]; norm_num
  have r1 : (receive_step m1 t1 []).processed = [("_", t1)] := by
    norm_num [receive_step, k1, insertEntry, decide_eq_true hkeep,
      MSG_DEDUP_TTL]
  have hl : List.lookup (dedup_key m2) [("_", t1)] = some t1 := by
    rw [k2]; rfl
  refine ⟨k1, k2, ?_, ?_⟩ <;>
    rw [r1] <;> simp [receive_step, hl, h5]

/-- Witness for C10 at two concrete id-less messages 10 seconds apart. -/
theorem dedup_missing_ids_collide_witness :
    dedup_key ⟨"text", "u", none, none, some "hello"⟩ = "_"
    ∧ dedup_key ⟨"text", "u", none, none, some "world"⟩ = "_"
    ∧ (receive_step ⟨"text", "u", none, none, some "world"⟩ 20
        (receive_step ⟨"text", "u", none, none, some "hello"⟩ 10 []).processed).dispatched
        = false
    ∧ (receive_step ⟨"text", "u", none, none, some "world"⟩ 20
        (receive_step ⟨"text", "u", none, none, some "hello"⟩ 10 []).processed).processed
        = (receive_step ⟨"text", "u", none, none, some "hello"⟩ 10 []).processed :=
  dedup_missing_ids_collide _ _ 10 20 rfl rfl rfl rfl
    (by rw [MSG_DEDUP_TTL]; norm_num)

/-- C6 counterexample: a POST body that is not valid UTF-8 (the single byte
`0xFF`) is decoded on line 115, before the `try:` block, so the
`UnicodeDecodeError` escapes the webhook boundary instead of being answered
with `"success"` — even though decryption and parsing would have
succeeded. -/
theorem webhook_invalid_utf8_cex :
    receive_message [0xFF]
        ⟨Except.ok "<xml/>", Except.ok ⟨"text", "u", none, none, none⟩⟩ 0 []
      = WebhookResult.uncaught "UnicodeDecodeError"
    ∧ (receive_message [0xFF]
        ⟨Except.ok "<xml/>", Except.ok ⟨"text", "u", none, none, none⟩⟩ 0
        []).isSuccessAck = false := by
  constructor <;> rfl

/-- C6 amended: for every POST whose body is valid UTF-8, the webhook
answers `"success"` to its caller whatever happens internally (decryption
failure, malformed XML, dedup path, dispatch); only the body decode itself,
which runs before the `try:`, can raise past the boundary. -/
theorem webhook_acks_valid_utf8 (body : List Nat) (o : CallbackOracles)
    (now : ℚ) (pm : List (String × ℚ)) (h : utf8Valid body = true) :
    (receive_message body o now pm).isSuccessAck = true := by
  rw [receive_message, if_pos h]
  cases hd : o.decrypt with
  | error e => simp [WebhookResult.isSuccessAck]
  | ok x =>
    cases hp : o.parseXml with
    | error e => simp [WebhookResult.isSuccessAck]
    | ok m => simp [WebhookResult.isSuccessAck, receive_step_response]

/-- Witness for C6 (amended) at a concrete valid-UTF-8 body with a failing
decrypt. -/
theorem webhook_acks_valid_utf8_witness :
    (receive_message [0x68, 0x69] ⟨Except.error "bad signature",
        Except.ok ⟨"text", "u", none, none, none⟩⟩ 0 []).isSuccessAck = true :=
  webhook_acks_valid_utf8 [0x68, 0x69] _ 0 [] (by decide)

/-- C2: for a pending task (registered, not processing, live timer), the two
racing events — debounce-timer fire and explicit non-link trigger — start
exactly one pipeline run in either interleaving: the explicit path cancels
the timer and flips `processing` before its first suspension point, and the
timer's fire handler re-checks registration and `processing` before
acting. -/
theorem debounce_race_single_run (o : Oracles) (uid content : String)
    (st : BotState) (t : PendingTask)
    (h1 : List.lookup uid st.pending = some t)
    (h2 : t.processing = false) (h3 : t.timerActive = true)
    (h4 : o.extractUrl content = none) :
    (explicitStep o uid content st).2.toNat
      + (timerFireStep uid (explicitStep o uid content st).1).2.toNat = 1
    ∧ (timerFireStep uid st).2.toNat
      + (explicitStep o uid content (timerFireStep uid st).1).2.toNat = 1 := by
  constructor
  · have he : explicitStep o uid content st =
        (⟨insertEntry uid
          { t with
            extra_requirement := pyStrip content
            timerActive := false
            processing := true } st.pending⟩, true) := by
      simp [explicitStep, h1, h2, h4]
    rw [he]
    simp [timerFireStep, lookup_insertEntry]
  · have ht : timerFireStep uid st =
        (⟨insertEntry uid
          { t with
            processing := true
            timerActive := false } st.pending⟩, true) := by
      simp [timerFireStep, h1, h2, h3]
    rw [ht]
    simp [explicitStep, lookup_insertEntry]

/-- Concrete oracle bundle for witnesses: no link is recognized, every
pipeline call succeeds with fixed values. -/
def okOracles : Oracles where
  extractUrl := fun _ => none
  extractReq := fun _ _ => ""
  sendAck := .ok ()
  resolve := .ok ⟨"vid1", "T", "A", "v.mp4"⟩
  audioExtract := .ok "v.mp3"
  videoCode := "abc12"
  sendInfo := .ok ()
  summarize := .ok "SUM"
  saveEntry := .ok ()
  genPdf := .ok true
  upload := .ok "mid1"
  sendFilePost := .ok ()
  sendPdfFailNote := .ok ()
  sendMdSummary := .ok ()
  sendErrNote := .ok ()
  cleanupRun := .ok ()

/-- A concrete freshly created pending task for user `"u"` with a live
debounce timer. -/
def pendingFixture : PendingTask where
  user_id := "u"
  share_url := "url"
  share_text := "s"
  timerActive := true

/-- Registry holding exactly `pendingFixture`. -/
def pendingFixtureState : BotState := ⟨[("u", pendingFixture)]⟩

/-- Witness for C2 at a concrete pending task and trigger message. -/
theorem debounce_race_single_run_witness :
    (explicitStep okOracles "u" "开始" pendingFixtureState).2.toNat
      + (timerFireStep "u"
          (explicitStep okOracles "u" "开始" pendingFixtureState).1).2.toNat = 1
    ∧ (timerFireStep "u" pendingFixtureState).2.toNat
      + (explicitStep okOracles "u" "开始"
          (timerFireStep "u" pendingFixtureState).1).2.toNat = 1 :=
  debounce_race_single_run okOracles "u" "开始" pendingFixtureState
    pendingFixture rfl rfl rfl rfl

/-- `okOracles`, but recognizing `"https://v.douyin.com/abc"` as a link. -/
def linkOracles : Oracles :=
  { okOracles with
    extractUrl := fun c =>
      if c = "https://v.douyin.com/abc" then some ("https://v.douyin.com/abc")
      else none }

/-- A task currently being processed for user `"u"`. -/
def processingFixture : PendingTask where
  user_id := "u"
  share_url := "old"
  share_text := "t"
  processing := true

/-- Registry holding exactly `processingFixture`. -/
def processingFixtureState : BotState := ⟨[("u", processingFixture)]⟩

/-- The task `handle_message` freshly registers when the link arrives while
`processingFixture` is still being processed. -/
def replacedTaskFixture : PendingTask where
  user_id := "u"
  share_url := "https://v.douyin.com/abc"
  share_text := ""
  timerActive := true

/-- C1 counterexample: while user `"u"` is in PROCESSING, a message
containing a new link does NOT get the busy reply — `handle_message` checks
for links (case 2, lines 175-179) before the PROCESSING check (case 3,
lines 181-184), so `_start_new_task` replaces the in-flight task in the
registry and sends the acknowledgment instead. -/
theorem processing_busy_cex :
    handleMessage linkOracles "u" "https://v.douyin.com/abc"
        processingFixtureState
      = (⟨[("u", replacedTaskFixture)]⟩, [Effect.sendText "u" ACK_MSG])
    ∧ (handleMessage linkOracles "u" "https://v.douyin.com/abc"
        processingFixtureState).2 ≠ [Effect.sendText "u" BUSY_MSG]
    ∧ (handleMessage linkOracles "u" "https://v.douyin.com/abc"
        processingFixtureState).1 ≠ processingFixtureState := by
  refine ⟨by decide, by decide, by decide⟩

/-- C1 amended: while a user's task is in PROCESSING, a *non-link* message
yields only the immediate busy reply and leaves all state unchanged; a
message carrying a link instead behaves exactly like `_start_new_task` on
the untouched registry, replacing the in-flight task with a fresh pending
one. -/
theorem processing_busy_amended (o : Oracles) (uid content : String)
    (st : BotState) (p : PendingTask)
    (h1 : List.lookup uid st.pending = some p) (h2 : p.processing = true) :
    (o.extractUrl content = none →
      handleMessage o uid content st = (st, [Effect.sendText uid BUSY_MSG]))
    ∧ ∀ url, o.extractUrl content = some url →
        handleMessage o uid content st = startNewTask o uid content url st
        ∧ List.lookup uid (startNewTask o uid content url st).1.pending
            = some { user_id := uid
                     share_url := url
                     share_text := o.extractReq content url
                     extra_requirement := ""
                     timerActive := o.sendAck.isOk
                     processing := false } := by
  constructor
  · intro hn
    simp [handleMessage, h1, h2, afterPendingCheck, hn]
  · intro url hu
    constructor
    · simp [handleMessage, h1, h2, afterPendingCheck, hu]
    · rw [startNewTask]
      cases ha : o.sendAck with
      | ok u => simp [lookup_insertEntry, Except.isOk, Except.toBool, ha]
      | error e => simp [lookup_insertEntry, Except.isOk, Except.toBool, ha]

/-- Witness for C1 (amended) at a concrete processing task and a non-link
message. -/
theorem processing_busy_amended_witness :
    handleMessage okOracles "u" "请加快" processingFixtureState
      = (processingFixtureState, [Effect.sendText "u" BUSY_MSG]) :=
  (processing_busy_amended okOracles "u" "请加快" processingFixtureState
    processingFixture rfl rfl).1 rfl

/-- A pending task with a non-empty inline requirement and no follow-up. -/
def emptyExtraFixture : PendingTask where
  user_id := "u"
  share_url := "url"
  share_text := "请总结要点"

/-- Registry holding exactly `emptyExtraFixture`. -/
def emptyExtraFixtureState : BotState := ⟨[("u", emptyExtraFixture)]⟩

/-- C5 counterexample: when `extra_requirement` is the empty string — which
is not a trigger word — the pipeline is still invoked with `share_text`,
not with the stored (empty) follow-up text, because line 231 of `main.py`
tests Python truthiness of `extra_requirement` before the trigger-word
check. -/
theorem requirement_empty_extra_cex :
    Effect.summarizeCall "请总结要点"
        ∈ (processTask okOracles "u" emptyExtraFixtureState).2
    ∧ Effect.summarizeCall ""
        ∉ (processTask okOracles "u" emptyExtraFixtureState).2
    ∧ pyLower (pyStrip "") ∉ TRIGGER_WORDS
    ∧ emptyExtraFixture.extra_requirement = "" := by
  refine ⟨by decide, by decide, by decide, rfl⟩

theorem processBody_summarize_mem (o : Oracles) (uid req : String)
    (vi : VideoInfo) (a : String) (h2 : o.resolve = .ok vi)
    (h3 : o.audioExtract = .ok a) (h4 : o.sendInfo = .ok ()) :
    Effect.summarizeCall req ∈ (processBody o uid req).effs := by
  rw [processBody, h2, h3, h4]
  cases o.summarize with
  | error e => simp
  | ok s =>
    cases o.genPdf with
    | error e => cases o.sendPdfFailNote <;> cases o.sendMdSummary <;> simp
    | ok b =>
      cases b with
      | false => cases o.sendPdfFailNote <;> cases o.sendMdSummary <;> simp
      | true =>
        cases o.upload with
        | error e => cases o.sendPdfFailNote <;> cases o.sendMdSummary <;> simp
        | ok mid =>
          cases o.sendFilePost with
          | error e =>
            cases o.sendPdfFailNote <;> cases o.sendMdSummary <;> simp
          | ok u => simp

/-- C5 amended: when processing starts for a registered task (and the
pipeline reaches the summarization call), the requirement text passed to it
is the stored follow-up text `extra_requirement` unless that text is empty
or its trimmed, lower-cased form is one of the trigger words
开始/start/ok/好 — in those cases the original inline requirement
`share_text` is used. -/
theorem requirement_merge_amended (o : Oracles) (uid : String)
    (st : BotState) (task : PendingTask) (vi : VideoInfo) (a : String)
    (h1 : List.lookup uid st.pending = some task)
    (h2 : o.resolve = .ok vi) (h3 : o.audioExtract = .ok a)
    (h4 : o.sendInfo = .ok ()) :
    Effect.summarizeCall
        (if task.extra_requirement ≠ ""
            ∧ pyLower (pyStrip task.extra_requirement) ∉ TRIGGER_WORDS
          then task.extra_requirement else task.share_text)
      ∈ (processTask o uid st).2 := by
  have hm : mergeRequirement task.share_text task.extra_requirement
      = if task.extra_requirement ≠ ""
            ∧ pyLower (pyStrip task.extra_requirement) ∉ TRIGGER_WORDS
          then task.extra_requirement else task.share_text := by
    rw [mergeRequirement]
    by_cases he : task.extra_requirement = ""
    · simp [he]
    · by_cases ht : pyLower (pyStrip task.extra_requirement) ∈ TRIGGER_WORDS <;>
        simp [he, ht]
  rw [← hm]
  simp only [processTask, h1]
  have hmem := processBody_summarize_mem o uid
    (mergeRequirement task.share_text task.extra_requirement) vi a h2 h3 h4
  simp [List.mem_append, hmem]

/-- A pending task with a non-trigger follow-up requirement. -/
def extraReqFixture : PendingTask where
  user_id := "u"
  share_url := "url"
  share_text := "请总结要点"
  extra_requirement := "请注意风险"

/-- Registry holding exactly `extraReqFixture`. -/
def extraReqFixtureState : BotState := ⟨[("u", extraReqFixture)]⟩

/-- Witness for C5 (amended): a non-empty, non-trigger follow-up is the
requirement actually passed to the summarizer. -/
theorem requirement_merge_amended_witness :
    Effect.summarizeCall "请注意风险"
      ∈ (processTask okOracles "u" extraReqFixtureState).2 := by
  have h := requirement_merge_amended okOracles "u" extraReqFixtureState
    extraReqFixture ⟨"vid1", "T", "A", "v.mp4"⟩ "v.mp3" rfl rfl rfl rfl
  rwa [if_pos (by decide)] at h

/-- The teardown effects of the `finally:` block (and the registry pop). -/
def Effect.isTeardown : Effect → Bool
  | .cleanupFiles _ => true
  | .removePdf _ => true
  | .popPending _ => true
  | _ => false

theorem processBody_no_teardown (o : Oracles) (uid req : String) :
    ((processBody o uid req).effs.all (fun e => !e.isTeardown)) = true := by
  rw [processBody]
  cases o.resolve with
  | error e => rfl
  | ok vi =>
    cases o.audioExtract with
    | error e => rfl
    | ok a =>
      cases o.sendInfo with
      | error e => rfl
      | ok u =>
        cases o.summarize with
        | error e => rfl
        | ok s =>
          cases o.genPdf with
          | error e =>
            cases o.sendPdfFailNote <;> cases o.sendMdSummary <;> rfl
          | ok b =>
            cases b with
            | false =>
              cases o.sendPdfFailNote <;> cases o.sendMdSummary <;> rfl
            | true =>
              cases o.upload with
              | error e =>
                cases o.sendPdfFailNote <;> cases o.sendMdSummary <;> rfl
              | ok mid =>
                cases o.sendFilePost with
                | error e =>
                  cases o.sendPdfFailNote <;> cases o.sendMdSummary <;> rfl
                | ok u2 => rfl

theorem not_mem_processBody_of_teardown (o : Oracles) (uid req : String)
    (x : Effect) (hx : x.isTeardown = true) :
    x ∉ (processBody o uid req).effs := by
  intro hmem
  have hall := processBody_no_teardown o uid req
  rw [List.all_eq_true] at hall
  have := hall x hmem
  rw [hx] at this
  simp at this

theorem processBody_videoId (o : Oracles) (uid req : String) :
    (processBody o uid req).videoId
      = match o.resolve with
        | .ok vi => some vi.video_id
        | .error _ => none := by
  rw [processBody]
  cases o.resolve with
  | error e => rfl
  | ok vi =>
    cases o.audioExtract with
    | error e => rfl
    | ok a =>
      cases o.sendInfo with
      | error e => rfl
      | ok u =>
        cases o.summarize with
        | error e => rfl
        | ok s =>
          cases o.genPdf with
          | error e =>
            cases o.sendPdfFailNote <;> cases o.sendMdSummary <;> rfl
          | ok b =>
            cases b with
            | false =>
              cases o.sendPdfFailNote <;> cases o.sendMdSummary <;> rfl
            | true =>
              cases o.upload with
              | error e =>
                cases o.sendPdfFailNote <;> cases o.sendMdSummary <;> rfl
              | ok mid =>
                cases o.sendFilePost with
                | error e =>
                  cases o.sendPdfFailNote <;> cases o.sendMdSummary <;> rfl
                | ok u2 => rfl

/-- C4: every run of `_process_task` on a registered task — whatever the
outcome of each external call — ends with the task gone from the registry,
with exactly one registry pop, and with artifact cleanup requested exactly
when a content identifier had been resolved: cleanup is keyed by the
resolved `video_id` whenever one was obtained, and is skipped both when
resolution failed and — via the Python-truthiness guard `if video_id:` on
line 288 — when the resolved identifier is the (falsy) empty string. -/
theorem process_task_teardown (o : Oracles) (uid : String) (st : BotState)
    (task : PendingTask) (h : List.lookup uid st.pending = some task) :
    List.lookup uid (processTask o uid st).1.pending = none
    ∧ List.count (Effect.popPending uid) (processTask o uid st).2 = 1
    ∧ (∀ vi, o.resolve = .ok vi → vi.video_id ≠ "" →
        Effect.cleanupFiles vi.video_id ∈ (processTask o uid st).2)
    ∧ (∀ vi, o.resolve = .ok vi → vi.video_id = "" →
        ∀ v, Effect.cleanupFiles v ∉ (processTask o uid st).2)
    ∧ (∀ e, o.resolve = .error e →
        ∀ v, Effect.cleanupFiles v ∉ (processTask o uid st).2) := by
  simp only [processTask, h]
  refine ⟨lookup_eraseEntry uid _, ?_, ?_, ?_, ?_⟩
  · have hpop : Effect.popPending uid
        ∉ (processBody o uid
            (mergeRequirement task.share_text task.extra_requirement)).effs :=
      not_mem_processBody_of_teardown _ _ _ _ rfl
    rcases hbe : (processBody o uid
        (mergeRequirement task.share_text task.extra_requirement)).err with _ | e <;>
      rcases hbv : (processBody o uid
        (mergeRequirement task.share_text task.extra_requirement)).videoId
        with _ | v
    all_goals first
      | (by_cases hv0 : v = "" <;> cases o.cleanupRun <;>
          simp [hv0, List.count_append, List.count_eq_zero.mpr hpop,
            List.count_cons, List.count_eq_zero])
      | simp [List.count_append, List.count_eq_zero.mpr hpop, List.count_cons,
          List.count_eq_zero]
  · intro vi hvi hne
    have hv : (processBody o uid
        (mergeRequirement task.share_text task.extra_requirement)).videoId
        = some vi.video_id := by
      rw [processBody_videoId, hvi]
    rw [hv]
    cases o.cleanupRun <;> simp [hne]
  · intro vi hvi h0 v
    have hv : (processBody o uid
        (mergeRequirement task.share_text task.extra_requirement)).videoId
        = some vi.video_id := by
      rw [processBody_videoId, hvi]
    rw [hv]
    have hcl : Effect.cleanupFiles v
        ∉ (processBody o uid
            (mergeRequirement task.share_text task.extra_requirement)).effs :=
      not_mem_processBody_of_teardown _ _ _ _ rfl
    rcases hbe : (processBody o uid
        (mergeRequirement task.share_text task.extra_requirement)).err with _ | e2 <;>
      simp [List.mem_append, hcl, h0]
  · intro e he v
    have hv : (processBody o uid
        (mergeRequirement task.share_text task.extra_requirement)).videoId
        = none := by
      rw [processBody_videoId, he]
    rw [hv]
    have hcl : Effect.cleanupFiles v
        ∉ (processBody o uid
            (mergeRequirement task.share_text task.extra_requirement)).effs :=
      not_mem_processBody_of_teardown _ _ _ _ rfl
    rcases hbe : (processBody o uid
        (mergeRequirement task.share_text task.extra_requirement)).err with _ | e2 <;>
      simp [List.mem_append, hcl]

/-- Witness for C4 at a concrete registered task with an all-success
pipeline resolving the non-empty identifier `"vid1"`. -/
theorem process_task_teardown_witness :
    List.lookup "u" (processTask okOracles "u" emptyExtraFixtureState).1.pending
        = none
    ∧ List.count (Effect.popPending "u")
        (processTask okOracles "u" emptyExtraFixtureState).2 = 1
    ∧ (∀ vi, okOracles.resolve = .ok vi → vi.video_id ≠ "" →
        Effect.cleanupFiles vi.video_id
          ∈ (processTask okOracles "u" emptyExtraFixtureState).2)
    ∧ (∀ vi, okOracles.resolve = .ok vi → vi.video_id = "" →
        ∀ v, Effect.cleanupFiles v
          ∉ (processTask okOracles "u" emptyExtraFixtureState).2)
    ∧ (∀ e, okOracles.resolve = .error e →
        ∀ v, Effect.cleanupFiles v
          ∉ (processTask okOracles "u" emptyExtraFixtureState).2) :=
  process_task_teardown okOracles "u" emptyExtraFixtureState
    emptyExtraFixture rfl

theorem segStartsAux_length (duration : ℚ) (start : Nat) :
    (segStartsAux duration start).length
      = (⌈(duration - start) / (SEGMENT_WINDOW : ℚ)⌉).toNat := by
  induction start using segStartsAux.induct duration with
  | case1 s h ih =>
    rw [segStartsAux, if_pos h, List.length_cons, ih]
    have hpos : 0 < (duration - s) / (SEGMENT_WINDOW : ℚ) := by
      apply div_pos (by linarith) (by norm_num [SEGMENT_WINDOW])
    have hC : 1 ≤ ⌈(duration - s) / (SEGMENT_WINDOW : ℚ)⌉ :=
      Int.ceil_pos.mpr hpos
    have harg : (duration - ((s + SEGMENT_WINDOW : Nat) : ℚ))
        / (SEGMENT_WINDOW : ℚ)
        = (duration - s) / (SEGMENT_WINDOW : ℚ) - 1 := by
      have hW : (SEGMENT_WINDOW : ℚ) ≠ 0 := by norm_num [SEGMENT_WINDOW]
      push_cast
      field_simp
      ring
    rw [harg]
    have hsub : ⌈(duration - s) / (SEGMENT_WINDOW : ℚ) - 1⌉
        = ⌈(duration - s) / (SEGMENT_WINDOW : ℚ)⌉ - 1 := by
      exact_mod_cast Int.ceil_sub_int ((duration - s) / (SEGMENT_WINDOW : ℚ)) 1
    rw [hsub]
    omega
  | case2 s h =>
    rw [segStartsAux, if_neg h, List.length_nil]
    have hle : (duration - s) / (SEGMENT_WINDOW : ℚ) ≤ 0 := by
      apply div_nonpos_of_nonpos_of_nonneg (by linarith)
        (by norm_num [SEGMENT_WINDOW])
    have : ⌈(duration - s) / (SEGMENT_WINDOW : ℚ)⌉ ≤ 0 := by
      rw [Int.ceil_le]
      exact_mod_cast hle
    omega

theorem transcribeSegments_go (f : Nat → Option String) (segs : List Nat) :
    ∀ acc : List String × List Nat,
      segs.foldl (fun acc seg =>
        match f seg with
        | some t => (acc.1 ++ [t], acc.2 ++ [seg])
        | none => (acc.1, acc.2 ++ [seg])) acc
      = (acc.1 ++ segs.filterMap f, acc.2 ++ segs) := by
  induction segs with
  | nil => intro acc; simp
  | cons s ss ih =>
    intro acc
    rw [List.foldl_cons, List.filterMap_cons]
    cases hf : f s with
    | none => rw [ih]; simp [hf]
    | some t => rw [ih]; simp [hf]

theorem transcribeSegments_spec (f : Nat → Option String) (segs : List Nat) :
    transcribeSegments f segs = (segs.filterMap f, segs) := by
  rw [transcribeSegments, transcribeSegments_go]
  simp

/-- C9: audio above the 24 MiB threshold is routed to the segmentation path,
which creates `⌈D / 600⌉` fixed 600-second windows for duration `D`; every
segment is transcribed independently, failed segments are simply excluded
from the chronologically concatenated transcript, and every temporary
segment file is deleted after its transcription attempt regardless of
outcome. -/
theorem large_audio_segmentation (sizeBytes : Nat) (duration : ℚ)
    (transcribe : Nat → Option String)
    (hsize : 24 * 1024 * 1024 < sizeBytes) (hdur : 0 < duration) :
    routesToLargeAudio sizeBytes = true
    ∧ (segStarts duration).length
        = (⌈duration / (SEGMENT_WINDOW : ℚ)⌉).toNat
    ∧ (transcribeSegments transcribe (segStarts duration)).1
        = (segStarts duration).filterMap transcribe
    ∧ (transcribeSegments transcribe (segStarts duration)).2
        = segStarts duration := by
  refine ⟨?_, ?_, ?_, ?_⟩
  · simp [routesToLargeAudio, hsize]
  · rw [segStarts, segStartsAux_length]
    norm_num
  · rw [transcribeSegments_spec]
  · rw [transcribeSegments_spec]

/-- Witness for C9: a 25 MiB file of duration 1250 s gives
`⌈1250/600⌉ = 3` segments `[0, 600, 1200]`; with the middle segment's
transcription failing, the transcript keeps the other two in order and all
three files are deleted. -/
theorem large_audio_segmentation_witness :
    (routesToLargeAudio (25 * 1024 * 1024) = true
      ∧ (segStarts 1250).length = (⌈(1250 : ℚ) / (SEGMENT_WINDOW : ℚ)⌉).toNat
      ∧ (transcribeSegments
          (fun s => if s = 600 then none else some "t") (segStarts 1250)).1
          = (segStarts 1250).filterMap
              (fun s => if s = 600 then none else some "t")
      ∧ (transcribeSegments
          (fun s => if s = 600 then none else some "t") (segStarts 1250)).2
          = segStarts 1250)
    ∧ segStarts 1250 = [0, 600, 1200]
    ∧ (⌈(1250 : ℚ) / (SEGMENT_WINDOW : ℚ)⌉).toNat = 3
    ∧ (transcribeSegments
        (fun s => if s = 600 then none else some "t") [0, 600, 1200]).1
        = ["t", "t"]
    ∧ (transcribeSegments
        (fun s => if s = 600 then none else some "t") [0, 600, 1200]).2
        = [0, 600, 1200] := by
  have hseg : segStarts 1250 = [0, 600, 1200] := by
    rw [segStarts]
    rw [segStartsAux, if_pos (by norm_num)]
    rw [segStartsAux, if_pos (by norm_num [SEGMENT_WINDOW])]
    rw [segStartsAux, if_pos (by norm_num [SEGMENT_WINDOW])]
    rw [segStartsAux, if_neg (by norm_num [SEGMENT_WINDOW])]
    norm_num [SEGMENT_WINDOW]
  have hceil : (⌈(1250 : ℚ) / (SEGMENT_WINDOW : ℚ)⌉).toNat = 3 := by
    have h3 : ⌈(1250 : ℚ) / (SEGMENT_WINDOW : ℚ)⌉ = 3 := by
      rw [Int.ceil_eq_iff]
      constructor <;> norm_num [SEGMENT_WINDOW]
    rw [h3]; rfl
  refine ⟨large_audio_segmentation (25 * 1024 * 1024) 1250 _
    (by norm_num) (by norm_num), hseg, hceil, by decide, by decide⟩

/-! ## Evaluation lemmas for the chunked-delivery counterexamples

The concrete inputs that exhibit the chunking bugs are thousands of
characters long, so their evaluations are carried out by rewriting instead
of kernel computation. -/

theorem utf8Len_cons (c : Char) (l : List Char) :
    utf8Len (c :: l) = c.utf8Size + utf8Len l := by
  simp [utf8Len]

theorem utf8Len_replicate (n : Nat) (c : Char) :
    utf8Len (List.replicate n c) = n * c.utf8Size := by
  induction n with
  | zero => simp [utf8Len]
  | succ m ih =>
    rw [List.replicate_succ, utf8Len_cons, ih]
    ring

theorem shrinkCut_of_le (content : List Char) (k : Nat)
    (h : utf8Len (content.take k) ≤ MAX_LEN) : shrinkCut content k = k := by
  cases k with
  | zero => rfl
  | succ n => rw [shrinkCut, if_neg (by omega)]

theorem rfindAux_of_not_mem (c : Char) :
    ∀ (l : List Char), c ∉ l → ∀ (i : Nat) (acc : Int),
      rfindAux c l i acc = acc := by
  intro l
  induction l with
  | nil => intro _ i acc; rfl
  | cons x xs ih =>
    intro h i acc
    simp only [List.mem_cons, not_or] at h
    rw [rfindAux, if_neg (fun he => h.1 he.symm)]
    exact ih h.2 _ _

theorem rfind_of_not_mem (l : List Char) (c : Char) (h : c ∉ l) :
    rfind l c = -1 :=
  rfindAux_of_not_mem c l h 0 (-1)

theorem splitPartsFuel_step (fuel : Nat) (content : List Char)
    (hc : content ≠ []) (hf : fuel ≠ 0) :
    splitPartsFuel fuel content =
      if utf8Len content ≤ MAX_LEN then [content]
      else content.take (nextCut content) ::
        splitPartsFuel (fuel - 1) (content.drop (nextCut content)) := by
  cases fuel with
  | zero => exact absurd rfl hf
  | succ n =>
    cases content with
    | nil => exact absurd rfl hc
    | cons c cs =>
      rw [splitPartsFuel]
      norm_num

theorem replicate_ne_nil (n : Nat) (c : Char) (h : n ≠ 0) :
    List.replicate n c ≠ [] :=
  fun he => h ((List.replicate_eq_nil_iff c).mp he)

theorem splitParts_replicate_4000 :
    splitParts (List.replicate 4000 'a')
      = [List.replicate 2000 'a', List.replicate 2000 'a'] := by
  have hrep : ∀ n : Nat, utf8Len (List.replicate n 'a') = n := by
    intro n
    have ha : ('a').utf8Size = 1 := by decide
    rw [utf8Len_replicate, ha, Nat.mul_one]
  have htake : (List.replicate 4000 'a').take MAX_LEN
      = List.replicate 2000 'a' := by
    rw [List.take_replicate]
    norm_num [MAX_LEN]
  have hshrink : shrinkCut (List.replicate 4000 'a') MAX_LEN = MAX_LEN := by
    apply shrinkCut_of_le
    rw [htake, hrep]
    norm_num [MAX_LEN]
  have hrfind : rfind ((List.replicate 4000 'a').take MAX_LEN) '\n' = -1 := by
    rw [htake]
    apply rfind_of_not_mem
    rw [List.mem_replicate]
    exact fun hx => absurd hx.2 (by decide)
  have hnext : nextCut (List.replicate 4000 'a') = MAX_LEN := by
    simp only [nextCut, hshrink, hrfind]
    rw [if_neg (by norm_num [MAX_LEN])]
  have hdrop : (List.replicate 4000 'a').drop (nextCut (List.replicate 4000 'a'))
      = List.replicate 2000 'a' := by
    rw [hnext, List.drop_replicate]
    norm_num [MAX_LEN]
  have htake2 : (List.replicate 4000 'a').take (nextCut (List.replicate 4000 'a'))
      = List.replicate 2000 'a' := by
    rw [hnext, htake]
  have hfuel : ∀ f : Nat, f ≠ 0 →
      splitPartsFuel f (List.replicate 2000 'a') = [List.replicate 2000 'a'] := by
    intro f hf
    rw [splitPartsFuel_step f _ (replicate_ne_nil _ _ (by norm_num)) hf,
      if_pos (by rw [hrep]; norm_num [MAX_LEN])]
  rw [splitParts, List.length_replicate,
    splitPartsFuel_step 4000 _ (replicate_ne_nil _ _ (by norm_num)) (by norm_num),
    if_neg (by rw [hrep]; norm_num [MAX_LEN]), htake2, hdrop,
    hfuel (4000 - 1) (by norm_num)]

/-- C7 counterexample: for 4000 ASCII characters the splitter produces two
exactly-2000-byte parts, and the `"[2/2]\n"` marker prefixed to the second
part pushes the payload actually posted to 2006 bytes — past the 2000-byte
transport limit. -/
theorem sent_marker_exceeds_limit_cex :
    MAX_LEN < utf8Len ((sentParts (List.replicate 4000 'a')).getD 1 []) := by
  have hsent : (sentParts (List.replicate 4000 'a')).getD 1 []
      = marker 2 2 ++ List.replicate 2000 'a' := by
    simp only [sentParts, splitParts_replicate_4000]
    rfl
  rw [hsent, utf8Len_append, utf8Len_replicate]
  have hm : utf8Len (marker 2 2) = 6 := by decide
  have ha : ('a').utf8Size = 1 := by decide
  rw [hm, ha]
  norm_num [MAX_LEN]

/-- C7 amended: `send_text_message` splits text into ordered parts whose
UTF-8 sizes — before the `"[i/total]"` marker is prefixed — never exceed
the 2000-byte limit, cutting at the last newline of a candidate chunk when
it lies past the midpoint, and the parts concatenate back to the original
content; the marker added to non-first parts can push the bytes actually
posted past the limit. -/
theorem split_text_parts_amended (content : List Char) :
    (∀ part, part ∈ splitParts content → utf8Len part ≤ MAX_LEN)
    ∧ (splitParts content).flatten = content :=
  ⟨splitParts_le content, splitParts_flatten content⟩

/-- Witness for C7 (amended) at a concrete short text. -/
theorem split_text_parts_amended_witness :
    utf8Len (("hello\nworld").data) ≤ MAX_LEN
    ∧ (splitParts (("hello\nworld").data)).flatten = ("hello\nworld").data :=
  ⟨(split_text_parts_amended (("hello\nworld").data)).1 _ (by decide),
    (split_text_parts_amended (("hello\nworld").data)).2⟩

theorem splitOnNl_of_not_mem (l : List Char) (h : '\n' ∉ l) :
    splitOnNl l = [l] := by
  induction l with
  | nil => rfl
  | cons c cs ih =>
    simp only [List.mem_cons, not_or] at h
    rw [splitOnNl, if_neg (fun he => h.1 he.symm), ih h.2]

theorem splitOnNl_append_sep (l1 l2 : List Char) (h : '\n' ∉ l1) :
    splitOnNl (l1 ++ '\n' :: l2) = l1 :: splitOnNl l2 := by
  induction l1 with
  | nil =>
    rw [List.nil_append, splitOnNl, if_pos rfl]
  | cons c cs ih =>
    simp only [List.mem_cons, not_or] at h
    rw [List.cons_append, splitOnNl, if_neg (fun he => h.1 he.symm),
      ih h.2]

/-- The two lines of the markdown counterexample input. -/
def mdLineA : List Char := List.replicate 1700 'a'

/-- Second line of the markdown counterexample input. -/
def mdLineB : List Char := List.replicate 1700 'b'

/-- The markdown counterexample input: two 1700-byte lines, together well
past the 1800-byte markdown limit, so delivery needs two parts. -/
def mdCexContent : List Char := mdLineA ++ '\n' :: mdLineB

theorem splitMarkdownParts_cex_eval :
    splitMarkdownParts mdCexContent = [mdLineA ++ ['\n'], mdLineB ++ ['\n']] := by
  have hb : ('b').utf8Size = 1 := by decide
  have hnl : utf8Len ['\n'] = 1 := by decide
  have hA : utf8Len mdLineA = 1700 := by
    have ha : ('a').utf8Size = 1 := by decide
    rw [mdLineA, utf8Len_replicate, ha, Nat.mul_one]
  have hB : utf8Len mdLineB = 1700 := by
    rw [mdLineB, utf8Len_replicate, hb, Nat.mul_one]
  have hsplitnl : splitOnNl mdCexContent = [mdLineA, mdLineB] := by
    rw [mdCexContent, splitOnNl_append_sep _ _ (by
      rw [mdLineA, List.mem_replicate]
      exact fun hx => absurd hx.2 (by decide)),
      splitOnNl_of_not_mem _ (by
      rw [mdLineB, List.mem_replicate]
      exact fun hx => absurd hx.2 (by decide))]
  have hstep1 : mdStep ([], []) mdLineA = ([], mdLineA ++ ['\n']) := by
    rw [mdStep]
    rw [if_neg (by
      rw [List.nil_append, utf8Len_append, hA, hnl]
      norm_num [MAX_BYTES])]
    rfl
  have hstep2 : mdStep ([], mdLineA ++ ['\n']) mdLineB
      = ([mdLineA ++ ['\n']], mdLineB ++ ['\n']) := by
    rw [mdStep]
    rw [if_pos (by
      rw [utf8Len_append, utf8Len_append, utf8Len_append, hA, hB, hnl]
      norm_num [MAX_BYTES])]
    rw [if_neg (by
      intro he
      have := congrArg utf8Len he
      rw [utf8Len_append, hA, hnl] at this
      simp [utf8Len] at this)]
    rfl
  rw [splitMarkdownParts, hsplitnl, List.foldl_cons, hstep1, List.foldl_cons,
    hstep2, List.foldl_nil]
  rw [if_neg (by
    intro he
    have := congrArg utf8Len he
    rw [utf8Len_append, hB, hnl] at this
    simp [utf8Len] at this)]
  rfl

/-- C8 evaluation at the failing input: two 1700-byte markdown lines produce
two parts, and `send_markdown_message` raises `NameError` (the module never
imports `asyncio`, whose `sleep` is called whenever `len(parts) > 1`) right
after posting only the first part — no inter-send delay ever happens and
the remaining part is never delivered. -/
theorem send_markdown_name_error_cex :
    send_markdown_message mdCexContent
      = MdSendResult.nameError [mdLineA ++ ['\n']]
    ∧ (splitMarkdownParts mdCexContent).length = 2 := by
  have hlen : (splitMarkdownParts mdCexContent).length = 2 := by
    rw [splitMarkdownParts_cex_eval]
    rfl
  constructor
  · rw [send_markdown_message]
    rw [if_pos (by rw [hlen]; norm_num), splitMarkdownParts_cex_eval]
    rfl
  · exact hlen

end DouyinBot
